import Mathlib

/-!
Verification of the key/mouse binding parser of `kitty/options_types.py`.

The Python source is shallowly embedded: strings are Lean `String`
(a wrapper around `List Char`), machine operations on text are re-implemented
to follow CPython semantics where they are used, Python exceptions are an
`Except Unit` channel, and the external collaborators that live outside the
source file (the `kitty.fast_data_types` constant tables and the key-name
alias tables) are modelled from the specification where noted.
-/

set_option maxRecDepth 4000

deriving instance DecidableEq for Except

/-- Whitespace as recognised by CPython `str.strip` / `str.split` for the
ASCII range used by config directives. -/
def pyIsSpace (c : Char) : Bool :=
  c = ' ' ∨ c = '\t' ∨ c = '\n' ∨ c = '\r' ∨ c = '\x0b' ∨ c = '\x0c'

/-- `s.strip(chars)` generalised over a character predicate. -/
def pystripP (p : Char → Bool) (s : String) : String :=
  ⟨((s.data.dropWhile p).reverse.dropWhile p).reverse⟩

/-- Python `s.strip()`. -/
def pytrim (s : String) : String := pystripP pyIsSpace s

/-- Python `s.rstrip()`. -/
def pyrstrip (s : String) : String :=
  ⟨(s.data.reverse.dropWhile pyIsSpace).reverse⟩

/-- Python `s.split(maxsplit=n)` (whitespace split), on the character list.
After `n` fields have been split off, the remainder (stripped of leading
whitespace) is kept verbatim as a final field when it is non-empty. -/
def pysplitWsAux : Nat → List Char → List String
  | 0, cs =>
    let r := cs.dropWhile pyIsSpace
    if r.isEmpty then [] else [⟨r⟩]
  | n + 1, cs =>
    let cs1 := cs.dropWhile pyIsSpace
    match cs1 with
    | [] => []
    | c :: cs2 =>
      let w := (c :: cs2).takeWhile (fun ch => ¬ pyIsSpace ch)
      String.mk w :: pysplitWsAux n ((c :: cs2).drop w.length)

/-- Python `s.split(maxsplit=n)` for whitespace splitting. -/
def pysplitWs (n : Nat) (s : String) : List String :=
  pysplitWsAux n s.data

/-- Python `s.split(sep)` for a one-character separator. -/
def pysplitCharAux (sep : Char) : List Char → List Char → List String
  | acc, [] => [⟨acc.reverse⟩]
  | acc, c :: cs =>
    if c = sep then String.mk acc.reverse :: pysplitCharAux sep [] cs
    else pysplitCharAux sep (c :: acc) cs

/-- Python `s.split(sep)` for a one-character separator (never empty;
`"".split(sep) == ['']`). -/
def pysplitChar (sep : Char) (s : String) : List String :=
  pysplitCharAux sep [] s.data

/-- Python `s.upper()` restricted to ASCII, which is all the source feeds it
(the two non-ASCII modifier glyphs are case-less). -/
def pyUpper (s : String) : String := ⟨s.data.map Char.toUpper⟩

/-- Python `s.lower()` restricted to ASCII. -/
def pyLower (s : String) : String := ⟨s.data.map Char.toLower⟩

/-- Value of one hexadecimal digit. -/
def hexDigitVal (c : Char) : Option Nat :=
  if '0' ≤ c ∧ c ≤ '9' then some (c.toNat - '0'.toNat)
  else if 'a' ≤ c ∧ c ≤ 'f' then some (c.toNat - 'a'.toNat + 10)
  else if 'A' ≤ c ∧ c ≤ 'F' then some (c.toNat - 'A'.toNat + 10)
  else none

def pyHexAux : List Char → Nat → Option Nat
  | [], acc => some acc
  | c :: cs, acc =>
    match hexDigitVal c with
    | some d => pyHexAux cs (acc * 16 + d)
    | none => none

/-- Python `int(x, 16)` applied to the text after the `0x` marker: `none`
models the `ValueError` of a malformed literal.  (CPython additionally
tolerates numeric underscores, surrounding whitespace and a sign; whitespace
cannot occur in a shortcut token and the others are not modelled.) -/
def pyHexToNat (s : String) : Option Nat :=
  match s.data with
  | [] => none
  | l => pyHexAux l 0

/-- Source: `mod_map` — alias table applied to an uppercased modifier token. -/
def mod_map (s : String) : String :=
  match s with
  | "CTRL" => "CONTROL"
  | "CMD" => "SUPER"
  | "⌘" => "SUPER"
  | "⌥" => "ALT"
  | "OPTION" => "ALT"
  | "KITTY_MOD" => "KITTY"
  | _ => s

/-- Modelled from the spec: the constant modifier-bit table of the external
`kitty.fast_data_types` collaborator (`GLFW_MOD_*` attributes), which is not
part of the source file.  The spec names the standard qualifier bits plus a
placeholder bit for the user's primary modifier; `none` models the
`AttributeError` raised by `getattr` for any other name (there is no
`GLFW_MOD_NONE` attribute). -/
def GLFW_MOD (name : String) : Option Nat :=
  match name with
  | "SHIFT" => some 1
  | "CONTROL" => some 2
  | "ALT" => some 4
  | "SUPER" => some 8
  | "CAPS_LOCK" => some 16
  | "NUM_LOCK" => some 32
  | "KITTY" => some 1024
  | _ => none

/-- The placeholder bit of the primary modifier (`GLFW_MOD_KITTY`). -/
def GLFW_MOD_KITTY : Nat := 1024

/-- Result of `parse_mods`: Python returns an `int` mask on success and
`None` on failure; the failure arm additionally records whether the
`log_error` call was reached (it is skipped for a token whose uppercase
form is `NONE`). -/
inductive ModsResult
  | ok (mods : Nat)
  | failSilent
  | failLogged
deriving DecidableEq, Repr

/-- The loop of `parse_mods`: `mods` is the accumulated mask. -/
def parse_mods_go (mods : Nat) : List String → ModsResult
  | [] => .ok mods
  | m :: rest =>
    match GLFW_MOD (mod_map (pyUpper m)) with
    | some bit => parse_mods_go (mods ||| bit) rest
    | none => if pyUpper m = "NONE" then .failSilent else .failLogged

/-- Source: `parse_mods(parts, sc)`.  The `sc` argument is only interpolated
into the log message and does not influence the result. -/
def parse_mods (parts : List String) (sc : String) : ModsResult :=
  let _ := sc
  parse_mods_go 0 parts

/-- Source: `SingleKey` (from `kitty.types`) — a normalized key trigger. -/
structure SingleKey where
  mods : Nat
  is_native : Bool
  key : Nat
deriving DecidableEq, Repr

/-- Modelled from the spec: `character_key_name_aliases` from the external
`kitty.key_names` module is not part of the source file; no claim depends on
its contents, so the base table is modelled as empty.  The entries the source
file itself adds on top of it (every ASCII uppercase letter mapped to its
lowercase form, building `character_key_name_aliases_with_ascii_lowercase`)
are embedded exactly. -/
def character_key_name_aliases_with_ascii_lowercase (s : String) : Option String :=
  match s.data with
  | [c] => if 'A' ≤ c ∧ c ≤ 'Z' then some ⟨[c.toLower]⟩ else none
  | _ => none

/-- Modelled from the spec: `functional_key_name_aliases` from the external
`kitty.key_names` module; no claim depends on its contents, so it is modelled
as empty (every name is its own canonical form). -/
def functional_key_name_aliases (s : String) : Option String :=
  let _ := s
  none

/-- Modelled from the spec: the `GLFW_FKEY_*` functional-key constants of the
external `kitty.fast_data_types` collaborator; no claim depends on its
entries, so it is modelled as empty. -/
def GLFW_FKEY (name : String) : Option Nat :=
  let _ := name
  none

/-- Modelled from the spec: `get_key_name_lookup()` — the generic key-name
lookup of the external collaborator, `0`/`None` meaning unknown; no claim
depends on a successful lookup, so it is modelled as always failing. -/
def key_name_lookup (q : String) (case_sensitive : Bool) : Nat :=
  let _ := q
  let _ := case_sensitive
  0

/-- Source: `parse_shortcut(sc)`.  The `.error ()` outcome is the
`InvalidMods` exception, the only exception this function can raise. -/
def parse_shortcut (sc : String) : Except Unit SingleKey :=
  let sc := if sc.data.getLastD ' ' = '+' ∧ sc.data.length > 1
            then ⟨sc.data.dropLast ++ "plus".data⟩ else sc
  let parts := pysplitChar '+' sc
  match (if parts.length > 1 then
           let m := match parse_mods parts.dropLast sc with
                    | .ok m => m
                    | _ => 0
           if m = 0 then none else some m
         else some 0 : Option Nat) with
  | none => .error ()
  | some mods =>
    let q := parts.getLastD ""
    let q := (character_key_name_aliases_with_ascii_lowercase (pyUpper q)).getD q
    if q.data.take 2 = ['0', 'x'] then
      match pyHexToNat ⟨q.data.drop 2⟩ with
      | some key => .ok ⟨mods, true, key⟩
      | none => .ok ⟨mods, false, 0⟩
    else
      match q.data with
      | [c] => .ok ⟨mods, false, c.toNat⟩
      | _ =>
        let uq := pyUpper q
        let uq := (functional_key_name_aliases uq).getD uq
        match GLFW_FKEY uq with
        | some x => .ok ⟨mods, false, x⟩
        | none =>
          let key := key_name_lookup q false
          .ok ⟨mods, decide (key > 0), key⟩

/-- Source: `KeyAction` — parsed action: function name plus arguments. -/
structure KeyAction where
  func : String
  args : List String
deriving DecidableEq, Repr

/-- The `func_with_args, args_funcs = key_func()` registry: the argument
parsers registered (in other modules) for specific function names.  A parser
receives the function name and the remainder text and may raise
(`.error ()`). -/
abbrev Registry := String → Option (String → String → Except Unit (String × List String))

/-- The registry with no registered argument parsers. -/
def emptyRegistry : Registry := fun _ => none

/-- Source: `parse_key_action(action)`.  The result value `none` is Python's
`None` ("ignore this action"); the `.error ()` outcome is an exception
escaping the function — `parts[0]` raises `IndexError` when the stripped
input is empty, and nothing else escapes (a raising argument parser is caught
and logged). -/
def parse_key_action (args_funcs : Registry) (action : String) :
    Except Unit (Option KeyAction) :=
  match pysplitWs 1 (pytrim action) with
  | [] => .error ()
  | [func] => .ok (some ⟨func, []⟩)
  | func :: rest :: _ =>
    match args_funcs func with
    | some parser =>
      match parser func rest with
      | .ok (f, args) => .ok (some ⟨f, args⟩)
      | .error _ => .ok none
    | none => .ok none

/-- The scan loop of `BaseDefinition.resolve_kitten_aliases`: state is the
current plugin name (`kitten`), the trailing-argument text (`rest`) and the
`changed` flag; the loop visits every entry of the alias table in order.
`.error ()` is the `IndexError` of `expanded[0]` on an empty expansion. -/
def kitten_scan (kitten rest : String) (changed : Bool) :
    List (String × List String) → Except Unit (String × String × Bool)
  | [] => .ok (kitten, rest, changed)
  | (key, expanded) :: tl =>
    if key = kitten then
      match expanded with
      | [] => .error ()
      | [e0] => kitten_scan e0 rest true tl
      | e0 :: e1 :: _ => kitten_scan e0 ⟨e1.data ++ ' ' :: rest.data⟩ true tl
    else kitten_scan kitten rest changed tl

/-- Source: `BaseDefinition.resolve_kitten_aliases(aliases)`.  The method
mutates `self.action` in place; the embedding returns the new action.  The
alias dict is embedded as its ordered list of key/value pairs (Python dicts
iterate in insertion order, keys unique). -/
def resolve_kitten_aliases (aliases : List (String × List String))
    (action : KeyAction) : Except Unit KeyAction :=
  match action.args with
  | [] => .ok action
  | kitten :: args_tl =>
    match kitten_scan kitten (args_tl.headD "") false aliases with
    | .error e => .error e
    | .ok (kitten, rest, changed) =>
      if changed then .ok ⟨action.func, [kitten, pyrstrip rest]⟩ else .ok action

/-- Modelled from the spec: `defines.resolve_key_mods(kitty_mod, mods)` of
the external `kitty.fast_data_types` collaborator — the bit-substitution
capability: when the placeholder `GLFW_MOD_KITTY` bit is present it is
removed and the concrete `kitty_mod` bits are or-ed in; otherwise the mask is
returned unchanged. -/
def resolve_key_mods (kitty_mod mods : Nat) : Nat :=
  if mods &&& GLFW_MOD_KITTY = 0 then mods
  else (mods ^^^ (mods &&& GLFW_MOD_KITTY)) ||| kitty_mod

/-- Source: `MouseMapping` — one compiled mouse binding. -/
structure MouseMapping where
  button : Nat
  mods : Nat
  repeat_count : Int
  grabbed : Bool
  action : KeyAction
deriving DecidableEq, Repr

/-- Source: `MouseMapping.resolve(kitty_mod)` (embedding returns the updated
object instead of mutating in place). -/
def MouseMapping.resolve (m : MouseMapping) (kitty_mod : Nat) : MouseMapping :=
  { m with mods := resolve_key_mods kitty_mod m.mods }

/-- Source: `KeyDefinition` — one compiled key binding; `trigger` is the head
trigger and `rest` the ordered tail of a multi-key sequence. -/
structure KeyDefinition where
  is_sequence : Bool
  action : KeyAction
  trigger : SingleKey
  rest : List SingleKey
deriving DecidableEq, Repr

/-- The local function `r` of `KeyDefinition.resolve`. -/
def resolve_r (kitty_mod : Nat) (k : SingleKey) : SingleKey :=
  ⟨resolve_key_mods kitty_mod k.mods, k.is_native, k.key⟩

/-- Source: `KeyDefinition.resolve(kitty_mod)` (embedding returns the updated
object instead of mutating in place). -/
def KeyDefinition.resolve (d : KeyDefinition) (kitty_mod : Nat) : KeyDefinition :=
  { d with trigger := resolve_r kitty_mod d.trigger,
           rest := d.rest.map (resolve_r kitty_mod) }

/-- The shortcut field of a `map` directive after `sc.strip().strip('>')`. -/
def parse_map_sc (sc : String) : String :=
  pystripP (fun c => c = '>') (pytrim sc)

/-- The sequence loop of `parse_map`: each `>`-separated segment is parsed
with `parse_shortcut` (whose only exception, `InvalidMods`, is caught: the
loop aborts with `none`); a segment with key-code 0 likewise aborts.  The
first good segment becomes the head trigger, the others the tail. -/
def parse_map_seq_go (trigger : Option SingleKey) (restl : List SingleKey) :
    List String → Option (Option SingleKey × List SingleKey)
  | [] => some (trigger, restl)
  | part :: ps =>
    match parse_shortcut part with
    | .error _ => none
    | .ok k =>
      if k.key = 0 then none
      else
        match trigger with
        | none => parse_map_seq_go (some k) restl ps
        | some t => parse_map_seq_go (some t) (restl ++ [k]) ps

def parse_map_seq (parts : List String) : Option (Option SingleKey × List SingleKey) :=
  parse_map_seq_go none [] parts

/-- Tail of `parse_map` for the sequence shape: parse the action (any
exception is caught and the line dropped) and emit the single
`KeyDefinition` when a head trigger exists. -/
def parse_map_finish_seq (reg : Registry) (action : String)
    (trigger : Option SingleKey) (restl : List SingleKey) :
    Except Unit (List KeyDefinition) :=
  match parse_key_action reg action with
  | .error _ => .ok []
  | .ok none => .ok []
  | .ok (some pa) =>
    match trigger with
    | some t => .ok [⟨true, pa, t, restl⟩]
    | none => .ok []

/-- Tail of `parse_map` for the single-shortcut shape. -/
def parse_map_finish (reg : Registry) (action : String) (k : SingleKey) :
    Except Unit (List KeyDefinition) :=
  match parse_key_action reg action with
  | .error _ => .ok []
  | .ok none => .ok []
  | .ok (some pa) => .ok [⟨false, pa, k, []⟩]

/-- Body of `parse_map` after the two fields have been split off. -/
def parse_map_body (reg : Registry) (sc action : String) :
    Except Unit (List KeyDefinition) :=
  if sc.data = [] ∨ action.data = [] then .ok []
  else if sc.data.contains '>' then
    match parse_map_seq (pysplitChar '>' sc) with
    | none => .ok []
    | some (trigger, restl) => parse_map_finish_seq reg action trigger restl
  else
    match parse_shortcut sc with
    | .error _ => .ok []
    | .ok k => if k.key = 0 then .ok [] else parse_map_finish reg action k

/-- Source: `parse_map(val)` — the generator is embedded as the list of the
`KeyDefinition` values it yields; `.error` would be an exception escaping the
generator (the theorems show there is none). -/
def parse_map (reg : Registry) (val : String) : Except Unit (List KeyDefinition) :=
  match pysplitWs 1 val with
  | [sc, action] => parse_map_body reg (parse_map_sc sc) (pytrim action)
  | _ => .ok []

/-- The mouse modifier prefix of `parse_mouse_map`: returns the lowercased
button token together with the parsed modifier mask, or `none` when modifier
parsing failed (the line is dropped). -/
def mouse_obutton_mods (xbutton : String) : Option (String × Nat) :=
  let kparts := pysplitChar '+' xbutton
  if kparts.length > 1 then
    let obutton := pyLower (kparts.getLastD "")
    match parse_mods kparts.dropLast obutton with
    | .ok m => some (obutton, m)
    | _ => none
  else some (pyLower xbutton, 0)

/-- The `{'left': 'b1', 'middle': 'b3', 'right': 'b2'}` alias table of
`parse_mouse_map` (non-sequential by design). -/
def mouse_button_name (obutton : String) : String :=
  match obutton with
  | "left" => "b1"
  | "middle" => "b3"
  | "right" => "b2"
  | _ => obutton

/-- Modelled from the spec: the `GLFW_MOUSE_BUTTON_*` constants of the
external `kitty.fast_data_types` collaborator; the spec fixes
left ↦ 1, middle ↦ 3, right ↦ 2 through the `b1`/`b3`/`b2` names, so button
`n` carries code `n`; `none` models the `AttributeError` of `getattr` (caught
in the source and turned into dropping the line). -/
def GLFW_MOUSE_BUTTON (b : String) : Option Nat :=
  match b with
  | "1" => some 1
  | "2" => some 2
  | "3" => some 3
  | "4" => some 4
  | "5" => some 5
  | "6" => some 6
  | "7" => some 7
  | "8" => some 8
  | _ => none

/-- Button lookup of `parse_mouse_map`:
`getattr(defines, f'GLFW_MOUSE_BUTTON_{b}')` with `b` the aliased name minus
its first character. -/
def mouse_button_code (obutton : String) : Option Nat :=
  GLFW_MOUSE_BUTTON ⟨(mouse_button_name obutton).data.drop 1⟩

/-- The event-type table of `parse_mouse_map`: signed repeat count
(press family positive, release family negative); `none` is the `KeyError`
(caught in the source and turned into dropping the line). -/
def mouse_event_count (event : String) : Option Int :=
  match pyLower event with
  | "doubleclick" => some (-3)
  | "click" => some (-2)
  | "release" => some (-1)
  | "press" => some 1
  | "doublepress" => some 2
  | "triplepress" => some 3
  | _ => none

/-- Python `frozenset` of a list of strings, embedded as order-preserving
deduplication (first occurrence kept).  CPython's set iteration order is
unspecified; theorems about the fan-out are stated order-insensitively. -/
def pyuniq (l : List String) : List String :=
  l.foldl (fun acc x => if acc.contains x then acc else acc ++ [x]) []

/-- Source: `parse_mouse_map(val)` — the generator is embedded as the list of
the `MouseMapping` values it yields. -/
def parse_mouse_map (reg : Registry) (val : String) : Except Unit (List MouseMapping) :=
  match pysplitWs 3 val with
  | [xbutton, event, modes, action] =>
    match mouse_obutton_mods xbutton with
    | none => .ok []
    | some (obutton, mods) =>
      match mouse_button_code obutton with
      | none => .ok []
      | some button =>
        match mouse_event_count event with
        | none => .ok []
        | some count =>
          let specified_modes := pyuniq (pysplitChar ',' (pyLower modes))
          if specified_modes.any (fun m => ¬ (m = "grabbed" ∨ m = "ungrabbed")) then
            .ok []
          else
            match parse_key_action reg action with
            | .error _ => .ok []
            | .ok none => .ok []
            | .ok (some pa) =>
              .ok (specified_modes.map
                    (fun mode => ⟨button, mods, count, mode = "grabbed", pa⟩))
  | _ => .ok []

/-- A segment of a `>`-sequence is bad when its shortcut raises
`InvalidMods` or resolves to key-code 0. -/
def bad_segment (part : String) : Prop :=
  parse_shortcut part = .error () ∨
    ∃ k, parse_shortcut part = .ok k ∧ k.key = 0

/-! ## Sanity checks: the embedding evaluated on the spec's examples -/

example : parse_shortcut "ctrl+a" = .ok ⟨2, false, 97⟩ := by decide
example : parse_shortcut "A" = .ok ⟨0, false, 97⟩ := by decide
example : parse_shortcut "none+a" = .error () := by decide
example : parse_shortcut "0x41" = .ok ⟨0, true, 65⟩ := by decide
example : parse_mods ["none"] "x" = .failSilent := by decide
example : parse_mods ["ctrl", "shift"] "x" = .ok 3 := by decide
example : parse_key_action emptyRegistry "new_tab" = .ok (some ⟨"new_tab", []⟩) := by decide
example : parse_key_action emptyRegistry "foo bar baz" = .ok none := by decide
example : parse_key_action emptyRegistry "  " = .error () := by decide
example : parse_map emptyRegistry "ctrl+a>ctrl+b new_tab" =
    .ok [⟨true, ⟨"new_tab", []⟩, ⟨2, false, 97⟩, [⟨2, false, 98⟩]⟩] := by decide
example : parse_map emptyRegistry "ctrl+a>zzzz new_tab" = .ok [] := by decide
example : parse_map emptyRegistry "kitty_mod+a new_tab" =
    .ok [⟨false, ⟨"new_tab", []⟩, ⟨1024, false, 97⟩, []⟩] := by decide
example : parse_mouse_map emptyRegistry "left press grabbed,ungrabbed close_tab" =
    .ok [⟨1, 0, 1, true, ⟨"close_tab", []⟩⟩, ⟨1, 0, 1, false, ⟨"close_tab", []⟩⟩] := by decide
example : parse_mouse_map emptyRegistry "right doubleclick ungrabbed close_tab" =
    .ok [⟨2, 0, -3, false, ⟨"close_tab", []⟩⟩] := by decide
example : resolve_kitten_aliases [("a", ["b"]), ("b", ["c"])] ⟨"f", ["a"]⟩ =
    .ok ⟨"f", ["c", ""]⟩ := by decide
example : resolve_kitten_aliases [("a", ["b", "x y"])] ⟨"f", ["a", "tail"]⟩ =
    .ok ⟨"f", ["b", "x y tail"]⟩ := by decide

/-! ## Helper lemmas -/

/-- Clearing the `k`-masked bits of `m` by xor-ing them out leaves no bit of
`k` set. -/
theorem land_of_xor_land (m k : Nat) : (m ^^^ (m &&& k)) &&& k = 0 := by
  apply Nat.eq_of_testBit_eq
  intro i
  simp only [Nat.testBit_land, Nat.testBit_xor, Nat.zero_testBit]
  cases m.testBit i <;> cases k.testBit i <;> rfl

/-- If `x` has no bit of `k`, then clearing the `k`-bits of `x ||| c` and
or-ing `c` back in reproduces `x ||| c`. -/
theorem clear_then_or (x c k : Nat) (h : x &&& k = 0) :
    ((x ||| c) ^^^ ((x ||| c) &&& k)) ||| c = x ||| c := by
  apply Nat.eq_of_testBit_eq
  intro i
  have hb : (x.testBit i && k.testBit i) = false := by
    have := congrArg (fun n => n.testBit i) h
    simpa [Nat.testBit_land, Nat.zero_testBit] using this
  simp only [Nat.testBit_lor, Nat.testBit_xor, Nat.testBit_land]
  cases hx : x.testBit i <;> cases hk : k.testBit i <;> cases c.testBit i <;>
    simp_all

/-- The bit-substitution of the primary modifier is idempotent on masks. -/
theorem resolve_key_mods_idem (c m : Nat) :
    resolve_key_mods c (resolve_key_mods c m) = resolve_key_mods c m := by
  unfold resolve_key_mods
  by_cases h1 : m &&& GLFW_MOD_KITTY = 0
  · simp [h1]
  · rw [if_neg h1]
    by_cases h2 : ((m ^^^ (m &&& GLFW_MOD_KITTY)) ||| c) &&& GLFW_MOD_KITTY = 0
    · rw [if_pos h2]
    · rw [if_neg h2]
      exact clear_then_or _ c GLFW_MOD_KITTY (land_of_xor_land m GLFW_MOD_KITTY)

/-- Idempotence lifted to a single trigger. -/
theorem resolve_r_idem (km : Nat) (k : SingleKey) :
    resolve_r km (resolve_r km k) = resolve_r km k := by
  cases k
  simp [resolve_r, resolve_key_mods_idem]

/-! ## Claim theorems -/

/-- C6: resolving a `KeyDefinition` or a `MouseMapping` twice with the same
primary-modifier value leaves it in the same state as resolving it once —
`resolve` is idempotent. -/
theorem c6_theorem (km : Nat) (d : KeyDefinition) (m : MouseMapping) :
    (d.resolve km).resolve km = d.resolve km ∧
    (m.resolve km).resolve km = m.resolve km := by
  constructor
  · cases d with
    | mk isq act trig rest =>
      have hcomp : resolve_r km ∘ resolve_r km = resolve_r km :=
        funext (resolve_r_idem km)
      simp [KeyDefinition.resolve, List.map_map, hcomp, resolve_r_idem]
  · cases m with
    | mk b mo rc g a =>
      simp [MouseMapping.resolve, resolve_key_mods_idem]

/-- C7: `KeyDefinition.resolve` changes only modifier masks: every trigger's
key-code and native flag, the action, the sequence flag and the number and
order of tail triggers are unchanged; `MouseMapping.resolve` changes only the
modifier field, leaving button, repeat count, grab flag and action
unchanged. -/
theorem c7_theorem (km : Nat) (d : KeyDefinition) (m : MouseMapping) :
    (d.resolve km).is_sequence = d.is_sequence ∧
    (d.resolve km).action = d.action ∧
    (d.resolve km).trigger.key = d.trigger.key ∧
    (d.resolve km).trigger.is_native = d.trigger.is_native ∧
    (d.resolve km).rest.map SingleKey.key = d.rest.map SingleKey.key ∧
    (d.resolve km).rest.map SingleKey.is_native = d.rest.map SingleKey.is_native ∧
    (m.resolve km).button = m.button ∧
    (m.resolve km).repeat_count = m.repeat_count ∧
    (m.resolve km).grabbed = m.grabbed ∧
    (m.resolve km).action = m.action := by
  refine ⟨rfl, rfl, rfl, rfl, ?_, ?_, rfl, rfl, rfl, rfl⟩ <;>
    simp [KeyDefinition.resolve, List.map_map, Function.comp, resolve_r]

/-- C9: `parse_shortcut "ctrl+a"` gives mask = the CONTROL bit (2 in the
modelled table), native flag `false` and key `ord 'a'`; and
`parse_shortcut "A"` gives the same key with mask 0 — a bare uppercase ASCII
letter case-folds to the lowercase key code rather than adding shift. -/
theorem c9_theorem :
    parse_shortcut "ctrl+a" = .ok ⟨2, false, Char.toNat 'a'⟩ ∧
    GLFW_MOD (mod_map (pyUpper "ctrl")) = some 2 ∧
    parse_shortcut "A" = .ok ⟨0, false, Char.toNat 'a'⟩ := by
  refine ⟨by decide, by decide, by decide⟩

/-- C2 counterexample: `parse_mods(['none'], sc)` does not succeed with
mask 0 — it reports failure (Python `None`), merely without logging. -/
theorem c2_counterexample :
    parse_mods ["none"] "none" = ModsResult.failSilent ∧
    parse_mods ["none"] "none" ≠ ModsResult.ok 0 := by decide

/-- C2 amended: a token whose uppercased form is `NONE` does not contribute
zero bits: when the scan reaches it, `parse_mods` abandons the scan and
reports failure (returns `None`) without logging; later tokens are not
resolved. -/
theorem c2_theorem (m : String) (acc : Nat) (rest : List String) (sc : String)
    (h : pyUpper m = "NONE") :
    parse_mods_go acc (m :: rest) = .failSilent ∧
    parse_mods (m :: rest) sc = .failSilent := by
  have h1 : ∀ a, parse_mods_go a (m :: rest) = .failSilent := by
    intro a
    simp only [parse_mods_go, h]
    rfl
  exact ⟨h1 acc, h1 0⟩

/-- C2 witness: instance of `c2_theorem` at the token `"NoNe"`. -/
theorem c2_witness :
    pyUpper "NoNe" = "NONE" ∧ parse_mods ["NoNe"] "NoNe" = .failSilent :=
  ⟨by decide, ( c2_theorem "NoNe" 0 [] "NoNe" (by decide)).2⟩

/-- C1 counterexample: for the action text `"combine foo bar"` and a registry
with no parser for `"combine"`, `parse_key_action` does not return the
remainder as a single opaque argument — it reports the action invalid
(Python `None`). -/
theorem c1_counterexample :
    parse_key_action emptyRegistry "combine foo bar" = .ok none ∧
    parse_key_action emptyRegistry "combine foo bar" ≠
      .ok (some ⟨"combine", ["foo bar"]⟩) := by decide

/-- C1 amended: whenever the action string splits into a function name plus a
non-empty remainder and no argument parser is registered for the function
name, `parse_key_action` returns `None`, reporting the action as invalid
(only registered parsers produce argument lists). -/
theorem c1_theorem (reg : Registry) (action func rest : String) (tl : List String)
    (h1 : pysplitWs 1 (pytrim action) = func :: rest :: tl)
    (h2 : reg func = none) :
    parse_key_action reg action = .ok none := by
  simp only [parse_key_action, h1, h2]

/-- C1 witness: instance of `c1_theorem` at `"combine foo bar"` with the
empty registry. -/
theorem c1_witness :
    pysplitWs 1 (pytrim "combine foo bar") = ["combine", "foo bar"] ∧
    emptyRegistry "combine" = none ∧
    parse_key_action emptyRegistry "combine foo bar" = .ok none :=
  ⟨by decide, rfl, c1_theorem emptyRegistry "combine foo bar" "combine" "foo bar" []
    (by decide) rfl⟩

/-- Entries whose key differs from the current plugin name are skipped
without changing the scan state. -/
theorem kitten_scan_skip (pre l : List (String × List String))
    (kitten rest : String) (changed : Bool)
    (h : ∀ p ∈ pre, p.1 ≠ kitten) :
    kitten_scan kitten rest changed (pre ++ l) =
      kitten_scan kitten rest changed l := by
  induction pre with
  | nil => rfl
  | cons hd tl ih =>
    have hne : hd.1 ≠ kitten := h hd (List.mem_cons_self _ _)
    cases hd with
    | mk key expanded =>
      simp only [List.cons_append, kitten_scan, if_neg hne]
      exact ih (fun p hp => h p (List.mem_cons_of_mem _ hp))

/-- C3 counterexample: with the alias table `{'a': ['b'], 'b': ['c']}` and an
action whose first argument is `'a'`, the scan does not stop after rewriting
`'a'` to `'b'`: the later entry re-expands the substituted name to `'c'`,
so two rewrites happen in one call. -/
theorem c3_counterexample :
    resolve_kitten_aliases [("a", ["b"]), ("b", ["c"])] ⟨"f", ["a"]⟩ =
      .ok ⟨"f", ["c", ""]⟩ ∧
    resolve_kitten_aliases [("a", ["b"]), ("b", ["c"])] ⟨"f", ["a"]⟩ ≠
      .ok ⟨"f", ["b", ""]⟩ := by decide

/-- C3 amended: `resolve_kitten_aliases` scans the whole table without
stopping at a match, so the substituted plugin name is safe from
re-expansion only when no entry after the matching one carries the
substituted name as its key; under that proviso exactly one rewrite occurs
and the resulting plugin name is the matching expansion's first element. -/
theorem c3_theorem (pre post : List (String × List String)) (a0 e0 f : String)
    (etail argtl : List String)
    (hpre : ∀ p ∈ pre, p.1 ≠ a0) (hpost : ∀ p ∈ post, p.1 ≠ e0) :
    ∃ r, resolve_kitten_aliases (pre ++ (a0, e0 :: etail) :: post)
          ⟨f, a0 :: argtl⟩ = .ok ⟨f, [e0, r]⟩ := by
  have hfin : ∀ r, kitten_scan e0 r true post = .ok (e0, r, true) := by
    intro r
    have h := kitten_scan_skip post [] e0 r true hpost
    rwa [List.append_nil] at h
  simp only [resolve_kitten_aliases]
  rw [kitten_scan_skip pre _ a0 _ false hpre]
  cases etail with
  | nil =>
    simp only [kitten_scan, if_pos rfl, hfin]
    exact ⟨_, rfl⟩
  | cons e1 etl =>
    simp only [kitten_scan, if_pos rfl, hfin]
    exact ⟨_, rfl⟩

/-- C3 witness: instance of `c3_theorem` with a non-matching entry before and
after the matching one. -/
theorem c3_witness :
    (∀ p ∈ [("p", ["q"])], Prod.fst p ≠ "a") ∧
    (∀ p ∈ [("c", ["d"])], Prod.fst p ≠ "b") ∧
    ∃ r, resolve_kitten_aliases [("p", ["q"]), ("a", ["b"]), ("c", ["d"])]
          ⟨"f", ["a"]⟩ = .ok ⟨"f", ["b", r]⟩ :=
  ⟨by decide, by decide,
    c3_theorem [("p", ["q"])] [("c", ["d"])] "a" "b" "f" [] []
      (by decide) (by decide)⟩

/-- The scan always succeeds on a table whose expansions are non-empty, and
its `changed` flag comes out `true` whenever it went in `true` or some entry
key equals the incoming plugin name. -/
theorem kitten_scan_ok (l : List (String × List String)) :
    ∀ kitten rest changed, (∀ p ∈ l, p.2 ≠ []) →
      ∃ k2 r2 c2, kitten_scan kitten rest changed l = .ok (k2, r2, c2) ∧
        ((changed = true ∨ ∃ p ∈ l, p.1 = kitten) → c2 = true) := by
  induction l with
  | nil =>
    intro kitten rest changed _
    refine ⟨kitten, rest, changed, rfl, ?_⟩
    rintro (hc | ⟨p, hp, _⟩)
    · exact hc
    · cases hp
  | cons hd tl ih =>
    intro kitten rest changed hne
    cases hd with
    | mk key expanded =>
      have htl : ∀ p ∈ tl, p.2 ≠ [] :=
        fun p hp => hne p (List.mem_cons_of_mem _ hp)
      by_cases hk : key = kitten
      · have hexp : expanded ≠ [] := hne (key, expanded) (List.mem_cons_self _ _)
        cases expanded with
        | nil => exact absurd rfl hexp
        | cons e0 etl =>
          cases etl with
          | nil =>
            obtain ⟨k2, r2, c2, heq, himp⟩ := ih e0 rest true htl
            refine ⟨k2, r2, c2, ?_, fun _ => himp (Or.inl rfl)⟩
            simp only [kitten_scan, if_pos hk, heq]
          | cons e1 etl2 =>
            obtain ⟨k2, r2, c2, heq, himp⟩ :=
              ih e0 ⟨e1.data ++ ' ' :: rest.data⟩ true htl
            refine ⟨k2, r2, c2, ?_, fun _ => himp (Or.inl rfl)⟩
            simp only [kitten_scan, if_pos hk, heq]
      · obtain ⟨k2, r2, c2, heq, himp⟩ := ih kitten rest changed htl
        refine ⟨k2, r2, c2, ?_, ?_⟩
        · simp only [kitten_scan, if_neg hk, heq]
        · rintro (hc | ⟨p, hp, hp1⟩)
          · exact himp (Or.inl hc)
          · rcases List.mem_cons.mp hp with heq2 | hmem
            · exact absurd (heq2 ▸ hp1 : (key, expanded).1 = kitten) hk
            · exact himp (Or.inr ⟨p, hmem, hp1⟩)

/-- C10: whenever `resolve_kitten_aliases` rewrites an action (some alias key
equals argument 0; all expansions non-empty as the `kitten_alias` option
guarantees), the resulting argument list has exactly two elements — the
expanded plugin name and the trailing-argument string — so any original
arguments past index 1 are discarded. -/
theorem c10_theorem (aliases : List (String × List String)) (f a0 : String)
    (argtl : List String) (hne : ∀ p ∈ aliases, p.2 ≠ [])
    (hmatch : ∃ p ∈ aliases, p.1 = a0) :
    ∃ k r, resolve_kitten_aliases aliases ⟨f, a0 :: argtl⟩ = .ok ⟨f, [k, r]⟩ := by
  obtain ⟨k2, r2, c2, heq, himp⟩ :=
    kitten_scan_ok aliases a0 (argtl.headD "") false hne
  have hc : c2 = true := himp (Or.inr hmatch)
  subst hc
  refine ⟨k2, pyrstrip r2, ?_⟩
  simp only [resolve_kitten_aliases, heq]
  rfl

/-- C10 witness: instance of `c10_theorem` at an action with four arguments;
the two arguments past index 1 are discarded by the rewrite. -/
theorem c10_witness :
    (∀ p ∈ [("a", ["b"])], Prod.snd p ≠ ([] : List String)) ∧
    (∃ p ∈ [("a", ["b"])], Prod.fst p = "a") ∧
    ∃ k r, resolve_kitten_aliases [("a", ["b"])] ⟨"f", ["a", "x", "y", "z"]⟩ =
      .ok ⟨"f", [k, r]⟩ :=
  ⟨by decide, ⟨("a", ["b"]), by decide, rfl⟩,
    c10_theorem [("a", ["b"])] "f" "a" ["x", "y", "z"] (by decide)
      ⟨("a", ["b"]), by decide, rfl⟩⟩

/-- The sequence loop aborts, from any intermediate state, as soon as the
remaining segments contain a bad one. -/
theorem parse_map_seq_go_none (parts : List String) :
    ∀ trigger restl, (∃ part ∈ parts, bad_segment part) →
      parse_map_seq_go trigger restl parts = none := by
  induction parts with
  | nil =>
    rintro _ _ ⟨p, hp, _⟩
    cases hp
  | cons hd tl ih =>
    rintro trigger restl ⟨p, hp, hfail⟩
    rcases List.mem_cons.mp hp with rfl | hmem
    · rcases hfail with herr | ⟨k, hok, hkey⟩
      · simp only [parse_map_seq_go, herr]
      · simp only [parse_map_seq_go, hok, if_pos hkey]
    · cases hps : parse_shortcut hd with
      | error e => simp only [parse_map_seq_go, hps]
      | ok k =>
        by_cases hk : k.key = 0
        · simp only [parse_map_seq_go, hps, if_pos hk]
        · cases trigger with
          | none =>
            simp only [parse_map_seq_go, hps, if_neg hk]
            exact ih _ _ ⟨p, hmem, hfail⟩
          | some t =>
            simp only [parse_map_seq_go, hps, if_neg hk]
            exact ih _ _ ⟨p, hmem, hfail⟩

/-- C5: for a `map` directive whose shortcut field is a `>`-separated
sequence, if any segment's modifier resolution fails (`InvalidMods`) or any
segment's key-code resolves to 0, `parse_map` yields nothing at all — no
partial sequence is ever produced. -/
theorem c5_theorem (reg : Registry) (val sc action : String)
    (h1 : pysplitWs 1 val = [sc, action])
    (h2 : (parse_map_sc sc).data.contains '>' = true)
    (h3 : ∃ part ∈ pysplitChar '>' (parse_map_sc sc), bad_segment part) :
    parse_map reg val = .ok [] := by
  simp only [parse_map, h1]
  unfold parse_map_body
  by_cases h0 : (parse_map_sc sc).data = [] ∨ (pytrim action).data = []
  · rw [if_pos h0]
  · rw [if_neg h0, if_pos h2]
    rw [parse_map_seq, parse_map_seq_go_none _ _ _ h3]

/-- C5 witness: instance of `c5_theorem` at
`"ctrl+a>zzzz new_tab"` — the second segment's key resolves to 0, so the
whole sequence is dropped even though the first segment is fine. -/
theorem c5_witness :
    pysplitWs 1 "ctrl+a>zzzz new_tab" = ["ctrl+a>zzzz", "new_tab"] ∧
    (parse_map_sc "ctrl+a>zzzz").data.contains '>' = true ∧
    ("zzzz" ∈ pysplitChar '>' (parse_map_sc "ctrl+a>zzzz") ∧
      parse_shortcut "zzzz" = .ok ⟨0, false, 0⟩) ∧
    parse_map emptyRegistry "ctrl+a>zzzz new_tab" = .ok [] :=
  ⟨by decide, by decide, ⟨by decide, by decide⟩,
    c5_theorem emptyRegistry "ctrl+a>zzzz new_tab" "ctrl+a>zzzz" "new_tab"
      (by decide) (by decide)
      ⟨"zzzz", by decide, Or.inr ⟨⟨0, false, 0⟩, by decide, rfl⟩⟩⟩

/-- C8: a valid `mouse_map` directive naming both grab modes yields exactly
two `MouseMapping` records sharing button, modifier mask, repeat count and
action and differing only in the grabbed flag (the order of the two is the
set-iteration order, which is unspecified in Python, so both orders are
covered); a directive naming a single mode yields exactly one record. -/
theorem c8_theorem (reg : Registry) (val xb ev modes act ob : String)
    (mods btn : Nat) (cnt : Int) (pa : KeyAction)
    (h1 : pysplitWs 3 val = [xb, ev, modes, act])
    (h2 : mouse_obutton_mods xb = some (ob, mods))
    (h3 : mouse_button_code ob = some btn)
    (h4 : mouse_event_count ev = some cnt)
    (h5 : parse_key_action reg act = .ok (some pa)) :
    (pyuniq (pysplitChar ',' (pyLower modes)) = ["grabbed", "ungrabbed"] ∨
        pyuniq (pysplitChar ',' (pyLower modes)) = ["ungrabbed", "grabbed"] →
      ∃ m1 m2, parse_mouse_map reg val = .ok [m1, m2] ∧
        m1.button = m2.button ∧ m1.mods = m2.mods ∧
        m1.repeat_count = m2.repeat_count ∧ m1.action = m2.action ∧
        m1.grabbed ≠ m2.grabbed) ∧
    (pyuniq (pysplitChar ',' (pyLower modes)) = ["grabbed"] ∨
        pyuniq (pysplitChar ',' (pyLower modes)) = ["ungrabbed"] →
      ∃ m1, parse_mouse_map reg val = .ok [m1]) := by
  constructor
  · rintro (hL | hL)
    · have hmain : parse_mouse_map reg val =
          .ok [⟨btn, mods, cnt, true, pa⟩, ⟨btn, mods, cnt, false, pa⟩] := by
        simp only [parse_mouse_map, h1, h2, h3, h4, hL, h5]
        simp
      exact ⟨_, _, hmain, rfl, rfl, rfl, rfl, by simp⟩
    · have hmain : parse_mouse_map reg val =
          .ok [⟨btn, mods, cnt, false, pa⟩, ⟨btn, mods, cnt, true, pa⟩] := by
        simp only [parse_mouse_map, h1, h2, h3, h4, hL, h5]
        simp
      exact ⟨_, _, hmain, rfl, rfl, rfl, rfl, by simp⟩
  · rintro (hL | hL)
    · have hmain : parse_mouse_map reg val = .ok [⟨btn, mods, cnt, true, pa⟩] := by
        simp only [parse_mouse_map, h1, h2, h3, h4, hL, h5]
        simp
      exact ⟨_, hmain⟩
    · have hmain : parse_mouse_map reg val = .ok [⟨btn, mods, cnt, false, pa⟩] := by
        simp only [parse_mouse_map, h1, h2, h3, h4, hL, h5]
        simp
      exact ⟨_, hmain⟩

/-- C8 witness: instance of `c8_theorem` at
`"left press grabbed,ungrabbed close_tab"`. -/
theorem c8_witness :
    pysplitWs 3 "left press grabbed,ungrabbed close_tab" =
      ["left", "press", "grabbed,ungrabbed", "close_tab"] ∧
    mouse_obutton_mods "left" = some ("left", 0) ∧
    mouse_button_code "left" = some 1 ∧
    mouse_event_count "press" = some 1 ∧
    parse_key_action emptyRegistry "close_tab" = .ok (some ⟨"close_tab", []⟩) ∧
    ∃ m1 m2,
      parse_mouse_map emptyRegistry "left press grabbed,ungrabbed close_tab" =
        .ok [m1, m2] ∧
      m1.button = m2.button ∧ m1.mods = m2.mods ∧
      m1.repeat_count = m2.repeat_count ∧ m1.action = m2.action ∧
      m1.grabbed ≠ m2.grabbed :=
  ⟨by decide, by decide, by decide, by decide, by decide,
    (c8_theorem emptyRegistry "left press grabbed,ungrabbed close_tab"
      "left" "press" "grabbed,ungrabbed" "close_tab" "left" 0 1 1
      ⟨"close_tab", []⟩ (by decide) (by decide) (by decide) (by decide)
      (by decide)).1 (Or.inl (by decide))⟩

/-- Elements surviving `dropWhile p` all satisfying `p` forces the whole list
to satisfy `p`. -/
theorem allp_of_dropWhile {p : Char → Bool} {l : List Char}
    (h : ∀ x ∈ l.dropWhile p, p x = true) : ∀ x ∈ l, p x = true := by
  intro x hx
  rw [← List.takeWhile_append_dropWhile (p := p) (l := l)] at hx
  rcases List.mem_append.mp hx with h1 | h2
  · exact List.mem_takeWhile_imp h1
  · exact h x h2

/-- If the stripped string is all whitespace, so was the original. -/
theorem allp_pytrim {s : String}
    (h : ∀ x ∈ (pytrim s).data, pyIsSpace x = true) :
    ∀ x ∈ s.data, pyIsSpace x = true := by
  have h2 : ∀ x ∈ (s.data.dropWhile pyIsSpace).reverse.dropWhile pyIsSpace,
      pyIsSpace x = true := by
    intro x hx
    refine h x ?_
    show x ∈ ((s.data.dropWhile pyIsSpace).reverse.dropWhile pyIsSpace).reverse
    exact List.mem_reverse.mpr hx
  have h3 := allp_of_dropWhile h2
  have h4 : ∀ x ∈ s.data.dropWhile pyIsSpace, pyIsSpace x = true :=
    fun x hx => h3 x (List.mem_reverse.mpr hx)
  exact allp_of_dropWhile h4

/-- A whitespace split with budget left starts with a word whenever the
input is not all whitespace. -/
theorem pysplitWs_succ_ne_nil (n : Nat) (s : String)
    (h : s.data.dropWhile pyIsSpace ≠ []) :
    ∃ w tl, pysplitWs (n + 1) s = w :: tl := by
  simp only [pysplitWs, pysplitWsAux]
  cases hd : s.data.dropWhile pyIsSpace with
  | nil => exact absurd hd h
  | cons c0 cs0 => exact ⟨_, _, rfl⟩

/-- `parse_key_action` returns normally on any input containing at least one
non-whitespace character. -/
theorem parse_key_action_total (reg : Registry) (action : String)
    (h : ∃ c ∈ action.data, pyIsSpace c = false) :
    ∃ r, parse_key_action reg action = .ok r := by
  obtain ⟨c, hc, hcs⟩ := h
  have hne : (pytrim action).data.dropWhile pyIsSpace ≠ [] := by
    intro hnil
    have hall := allp_pytrim (List.dropWhile_eq_nil_iff.mp hnil)
    rw [hall c hc] at hcs
    cases hcs
  obtain ⟨w, tl, hsplit⟩ := pysplitWs_succ_ne_nil 0 (pytrim action) hne
  unfold parse_key_action
  rw [hsplit]
  cases tl with
  | nil => exact ⟨_, rfl⟩
  | cons r tl2 =>
    dsimp only
    cases hreg : reg w with
    | none => exact ⟨_, rfl⟩
    | some parser =>
      dsimp only
      cases hp : parser w r with
      | error e => exact ⟨_, rfl⟩
      | ok fa =>
        cases fa with
        | mk f args => exact ⟨_, rfl⟩

/-- `parse_map` returns normally (a possibly empty yield list) on every
input: every exception inside is caught. -/
theorem parse_map_total (reg : Registry) (val : String) :
    ∃ l, parse_map reg val = .ok l := by
  unfold parse_map parse_map_body parse_map_finish_seq parse_map_finish
  repeat' split
  all_goals exact ⟨_, rfl⟩

/-- `parse_mouse_map` returns normally on every input. -/
theorem parse_mouse_map_total (reg : Registry) (val : String) :
    ∃ l, parse_mouse_map reg val = .ok l := by
  unfold parse_mouse_map
  repeat' split
  all_goals try dsimp only
  all_goals repeat' split
  all_goals exact ⟨_, rfl⟩

/-- C4 counterexample: `parse_key_action` on a whitespace-only string raises
(`parts[0]` is an `IndexError`), so not every entry point returns normally on
every input. -/
theorem c4_counterexample :
    parse_key_action emptyRegistry " " = .error () ∧
    parse_key_action emptyRegistry "" = .error () := by decide

/-- C4 amended: `parse_map` and `parse_mouse_map` return normally on every
input, yielding a (possibly empty) list of well-formed values;
`parse_key_action` returns normally on every input containing a
non-whitespace character (on empty or whitespace-only input it raises
`IndexError`). -/
theorem c4_theorem :
    (∀ (reg : Registry) (val : String), ∃ l, parse_map reg val = .ok l) ∧
    (∀ (reg : Registry) (val : String), ∃ l, parse_mouse_map reg val = .ok l) ∧
    (∀ (reg : Registry) (action : String),
      (∃ c ∈ action.data, pyIsSpace c = false) →
        ∃ r, parse_key_action reg action = .ok r) :=
  ⟨parse_map_total, parse_mouse_map_total, parse_key_action_total⟩

/-- C4 witness: instances of `c4_theorem` at concrete inputs. -/
theorem c4_witness :
    (∃ l, parse_map emptyRegistry "garbage" = .ok l) ∧
    (∃ l, parse_mouse_map emptyRegistry "garbage" = .ok l) ∧
    (∃ c ∈ "new_tab".data, pyIsSpace c = false) ∧
    (∃ r, parse_key_action emptyRegistry "new_tab" = .ok r) :=
  ⟨c4_theorem.1 emptyRegistry "garbage", c4_theorem.2.1 emptyRegistry "garbage",
    ⟨'n', by decide, by decide⟩,
    c4_theorem.2.2 emptyRegistry "new_tab" ⟨'n', by decide, by decide⟩⟩
